import Mathlib

/-!
Verification development for the Autopilot page of the voice-assistant
frontend (Frontend/src/pages/Home, the Autopilot component).

The component is a React function component.  Its state hooks become the
fields of `CompState`; each async event handler is split at its `await`
points into a synchronous issue step and a synchronous resolution step,
which is the standard shallow embedding of async JS: between the two
steps arbitrary other events may run on the single-threaded event loop.

JS-specific conventions used throughout:
- a JS value that may be `undefined`/`null` is an `Option`;
- `a || b` on strings is `jsOr` (the empty string is falsy);
- a JS object used as an integer-keyed map read through `!!m[i]` or
  `m[i] || ""` is a total function with default `false` / `""`;
- response-shape fields not read by any handler under study
  (extracted, evidence, scores, result payloads beyond status and
  action type) are omitted from the record types.
-/

/-- Language tag provided by the i18n context (`lang`). -/
inductive Lang where
  | en
  | zh
deriving DecidableEq, Repr

/-- Request mode of the analyze and adjust-time endpoints. -/
inductive Mode where
  | text
  | audio
deriving DecidableEq, Repr

/-- JS `a || b` for an optional string: `undefined`, `null` and the empty
string are falsy, so they fall through to the default. -/
def jsOr (o : Option String) (d : String) : String :=
  match o with
  | none => d
  | some s => if s = "" then d else s

/-- JS `String.prototype.trim()`: strip leading and trailing whitespace,
modelled structurally over the character list. -/
def jsTrim (s : String) : String :=
  String.mk (((s.data.dropWhile Char.isWhitespace).reverse.dropWhile Char.isWhitespace).reverse)

/-- Lookup of a named field in a JS object payload, modelled as an
association list with unique keys in insertion order. -/
def lookupField : List (String × String) → String → Option String
  | [], _ => none
  | (k, v) :: rest, f => if k = f then some v else lookupField rest f

/-- JS object spread `{...p, [f]: v}`: replaces the value of an existing
key in place, or appends a new key at the end. -/
def setField : List (String × String) → String → String → List (String × String)
  | [], f, v => [(f, v)]
  | (k, w) :: rest, f, v => if k = f then (f, v) :: rest else (k, w) :: setField rest f v

/-- One proposed action of `actions_preview` (shape per the backend
contract: action type tag, confidence, preview text, editable payload). -/
structure ActionPreview where
  action_type : String
  confidence : String
  preview : String
  payload : List (String × String)
deriving DecidableEq, Repr

/-- Reply draft shape (`reply_draft`). -/
structure ReplyDraft where
  fromAddr : Option String := none
  toAddr : Option String := none
  subject : Option String := none
  html : Option String := none
  text : Option String := none
deriving DecidableEq, Repr

/-- Empty reply draft, the `{}` default of `data.reply_draft || {}`. -/
def emptyReplyDraft : ReplyDraft := {}

/-- Successful `/autopilot/run` response body (`data` after unwrapping). -/
structure RunData where
  run_id : Option String := none
  transcript : Option String := none
  reply_draft : Option ReplyDraft := none
  actions_preview : Option (List ActionPreview) := none
deriving DecidableEq, Repr

/-- One element of `confirmResult.results`. -/
structure ExecResult where
  action_type : String
  status : String
deriving DecidableEq, Repr

/-- Successful `/autopilot/confirm` response body. -/
structure ConfirmData where
  results : Option (List ExecResult) := none
deriving DecidableEq, Repr

/-- Request body built by `handleRun`. -/
structure RunBody where
  mode : Mode
  locale : Lang
  audio_base64 : Option String := none
  text : Option String := none
deriving DecidableEq, Repr

/-- Request body built by `handleReschedule` for `/autopilot/adjust-time`. -/
structure RescheduleBody where
  mode : Mode
  locale : Lang
  action : ActionPreview
  audio_base64 : Option String := none
  text : Option String := none
deriving DecidableEq, Repr

/-- Successful `/autopilot/adjust-time` response body. -/
structure RescheduleResponse where
  user_text : Option String := none
  action : Option ActionPreview := none
deriving DecidableEq, Repr

/-- State hooks of the Autopilot component.  `mediaRecorder` and
`rescheduleRecorder` model whether the corresponding recorder ref
currently holds an active `MediaRecorder`. -/
structure CompState where
  lang : Lang
  inputText : String
  isRecording : Bool
  isProcessing : Bool
  isConfirming : Bool
  runResult : Option RunData
  confirmResult : Option ConfirmData
  actionChecks : Nat → Bool
  editedActions : List ActionPreview
  replyDraft : ReplyDraft
  rescheduleInputs : Nat → String
  rescheduleLoading : Nat → Bool
  rescheduleRecordingIndex : Option Nat
  mediaRecorder : Bool
  rescheduleRecorder : Bool

/-- Initial component state (the `useState` initial values; `lang` is
taken from the i18n context, `en` here). -/
def initComp : CompState where
  lang := Lang.en
  inputText := ""
  isRecording := false
  isProcessing := false
  isConfirming := false
  runResult := none
  confirmResult := none
  actionChecks := fun _ => false
  editedActions := []
  replyDraft := emptyReplyDraft
  rescheduleInputs := fun _ => ""
  rescheduleLoading := fun _ => false
  rescheduleRecordingIndex := none
  mediaRecorder := false
  rescheduleRecorder := false

/-- Synchronous prelude of `handleRun(mode, audioB64, overrideText)`: it
sets the processing flag, clears `runResult` and `confirmResult`, and
builds the request body (`overrideText ?? inputText` for text mode),
then suspends on the network call.  Returns the new state and the body
of the issued call. -/
def handleRunStart (mode : Mode) (audioB64 : Option String) (overrideText : Option String)
    (s : CompState) : CompState × RunBody :=
  ({ s with isProcessing := true, runResult := none, confirmResult := none },
    match mode with
    | Mode.audio => { mode := Mode.audio, locale := s.lang, audio_base64 := audioB64 }
    | Mode.text => { mode := Mode.text, locale := s.lang,
                     text := some (overrideText.getD s.inputText) })

/-- Resolution of a successful `handleRun` call: stores the response
wholesale, reinitialises the checks object with `true` for every index
of `actions_preview`, replaces the edited actions, and (in `finally`)
clears the processing flag.  There is no sequence-number check: the
response is applied unconditionally. -/
def handleRunResolveSuccess (d : RunData) (s : CompState) : CompState :=
  { s with
    runResult := some d
    replyDraft := d.reply_draft.getD emptyReplyDraft
    actionChecks := fun i => decide (i < (d.actions_preview.getD []).length)
    editedActions := d.actions_preview.getD []
    isProcessing := false }

/-- Resolution of a failed `handleRun` call: only logs and surfaces a
notice, then (in `finally`) clears the processing flag. -/
def handleRunResolveFailure (s : CompState) : CompState :=
  { s with isProcessing := false }

/-- One serialized action sent to `/autopilot/confirm`: the action object
spread plus `confirmed` and `skip`. -/
structure ConfirmAction where
  action : ActionPreview
  confirmed : Bool
  skip : Bool
deriving DecidableEq, Repr

/-- Index-passing map, the embedding of `Array.prototype.map((a, i) => ...)`. -/
def mapIdxFrom (f : Nat → ActionPreview → ConfirmAction) : Nat → List ActionPreview → List ConfirmAction
  | _, [] => []
  | i, a :: rest => f i a :: mapIdxFrom f (i + 1) rest

/-- Serialization performed inside `handleConfirm`:
`editedActions.map((a, i) => ({...a, confirmed: !!actionChecks[i], skip: !actionChecks[i]}))`. -/
def serializeForConfirmation (acts : List ActionPreview) (checks : Nat → Bool) : List ConfirmAction :=
  mapIdxFrom (fun i a => { action := a, confirmed := checks i, skip := !checks i }) 0 acts

/-- Request body of `/autopilot/confirm`. -/
structure ConfirmRequest where
  run_id : String
  actions : List ConfirmAction
deriving DecidableEq, Repr

/-- Outcome of the synchronous prelude of `handleConfirm`: either the
guard `if (!runResult?.run_id) return;` fires (no call issued, named
`noActiveRun` after the error the specification assigns to this path),
or a confirm request is issued. -/
inductive ConfirmStartOutcome where
  | noActiveRun
  | requested (req : ConfirmRequest)
deriving DecidableEq, Repr

/-- Synchronous prelude of `handleConfirm`: guard on a truthy
`runResult?.run_id` (absent object, absent id and empty id are falsy),
then set the confirming flag and serialize the current edited actions
with the current checks. -/
def handleConfirmStart (s : CompState) : CompState × ConfirmStartOutcome :=
  match s.runResult with
  | none => (s, ConfirmStartOutcome.noActiveRun)
  | some r =>
    match r.run_id with
    | none => (s, ConfirmStartOutcome.noActiveRun)
    | some rid =>
      if rid = "" then (s, ConfirmStartOutcome.noActiveRun)
      else
        ({ s with isConfirming := true },
          ConfirmStartOutcome.requested
            { run_id := rid
              actions := serializeForConfirmation s.editedActions s.actionChecks })

/-- Resolution of a successful `handleConfirm` call: stores the results
and (in `finally`) clears the confirming flag.  The success and warning
notices do not touch modelled state. -/
def handleConfirmResolveSuccess (cd : ConfirmData) (s : CompState) : CompState :=
  { s with confirmResult := some cd, isConfirming := false }

/-- Resolution of a failed `handleConfirm` call. -/
def handleConfirmResolveFailure (s : CompState) : CompState :=
  { s with isConfirming := false }

/-- Continuation of `handleStartRecording` once `getUserMedia` resolves
with a grant: a recorder is created and started, the ref is set and the
recording flag raised.  No check of any other capture site is made. -/
def handleStartRecordingGranted (s : CompState) : CompState :=
  { s with mediaRecorder := true, isRecording := true }

/-- The `handleStopRecording` handler: stops and clears the primary
recorder if present (finalization of the audio continues asynchronously
in `onstop`/`onloadend`). -/
def handleStopRecording (s : CompState) : CompState :=
  if s.mediaRecorder then
    { s with mediaRecorder := false, isRecording := false }
  else s

/-- Continuation of `handleRescheduleStartRecording(index)` once
`getUserMedia` resolves with a grant.  As in the primary handler, no
check of any other capture site is made. -/
def handleRescheduleStartRecordingGranted (i : Nat) (s : CompState) : CompState :=
  { s with rescheduleRecorder := true, rescheduleRecordingIndex := some i }

/-- The `handleRescheduleStopRecording` handler. -/
def handleRescheduleStopRecording (s : CompState) : CompState :=
  if s.rescheduleRecorder then
    { s with rescheduleRecorder := false, rescheduleRecordingIndex := none }
  else s

/-- The `appendToAnalyzeInput(text)` helper: returns the merged input and
stores it, with an early return of the empty string on falsy input. -/
def appendToAnalyzeInput (text : String) (s : CompState) : CompState × String :=
  if text = "" then (s, "")
  else
    let next := if s.inputText = "" then text else s.inputText ++ "\n" ++ text
    ({ s with inputText := next }, next)

/-- The `buildRescheduleLine(action, rawText)` helper (the `rawText`
parameter is unused in the source as well).  Renders the locale-specific
template from the payload with falsy-fallback defaults and a fixed
timezone. -/
def buildRescheduleLine (lg : Lang) (action : ActionPreview) (_rawText : String) : String :=
  let payload := action.payload
  let title := jsOr (lookupField payload "title") (match lg with
    | Lang.zh => "日程安排"
    | Lang.en => "Meeting")
  let date := jsOr (lookupField payload "date") ""
  let start := jsOr (lookupField payload "start_time") ""
  let endT := jsOr (lookupField payload "end_time") ""
  let tz := "America/Toronto"
  match lg with
  | Lang.zh =>
    ("改期更新：将「" ++ title ++ "」调整为 " ++ date ++ " " ++ start ++ "-" ++ endT
      ++ "（时区：" ++ tz ++ "）。")
  | Lang.en =>
    ("Reschedule update: move \"" ++ title ++ "\" to " ++ date ++ " " ++ start ++ "-" ++ endT
      ++ " (Timezone: " ++ tz ++ ").")

/-- Synchronous prelude of `handleReschedule(index, mode, audioB64)`:
`if (!action) return;` on a stale index, otherwise raise the per-index
loading flag and build the adjust-time request body (text mode sends the
trimmed per-index draft buffer). -/
def handleRescheduleStart (i : Nat) (mode : Mode) (audioB64 : Option String)
    (s : CompState) : Option (CompState × RescheduleBody) :=
  match s.editedActions.get? i with
  | none => none
  | some a =>
    some ({ s with rescheduleLoading := fun j => if j = i then true else s.rescheduleLoading j },
      match mode with
      | Mode.audio => { mode := Mode.audio, locale := s.lang, action := a, audio_base64 := audioB64 }
      | Mode.text => { mode := Mode.text, locale := s.lang, action := a,
                       text := some (jsTrim (s.rescheduleInputs i)) })

/-- The raw text resolved from an adjust-time response:
`(data.user_text || body.text || "").trim()`. -/
def rescheduleRawText (body : RescheduleBody) (resp : RescheduleResponse) : String :=
  jsTrim (jsOr resp.user_text (jsOr body.text ""))

/-- The normalized instruction line:
`data.action ? buildRescheduleLine(data.action, rawText) : rawText`. -/
def resolvedRescheduleLine (lg : Lang) (body : RescheduleBody) (resp : RescheduleResponse) : String :=
  match resp.action with
  | some a => buildRescheduleLine lg a (rescheduleRawText body resp)
  | none => rescheduleRawText body resp

/-- Resolution of a successful `handleReschedule` call: when the
normalized line is truthy, the line is merged into the primary input,
the per-index draft buffer is cleared and the prelude of
`handleRun("text", null, nextInput)` runs (returned as the issued run
body); when the line is empty nothing inside the guard runs and the
`finally` clause clears the per-index loading flag (in the truthy case
the loading flag is cleared only after the nested run resolves, which is
a separate later event not part of this step). -/
def handleRescheduleResolveSuccess (i : Nat) (body : RescheduleBody)
    (resp : RescheduleResponse) (s : CompState) : CompState × Option RunBody :=
  let line := resolvedRescheduleLine s.lang body resp
  if line = "" then
    ({ s with rescheduleLoading := fun j => if j = i then false else s.rescheduleLoading j }, none)
  else
    let p := appendToAnalyzeInput line s
    let s1 := { p.1 with rescheduleInputs := fun j => if j = i then "" else p.1.rescheduleInputs j }
    let q := handleRunStart Mode.text none (some p.2) s1
    (q.1, some q.2)

/-- Resolution of a failed `handleReschedule` call: notice plus the
`finally` clearing of the per-index loading flag. -/
def handleRescheduleResolveFailure (i : Nat) (s : CompState) : CompState :=
  { s with rescheduleLoading := fun j => if j = i then false else s.rescheduleLoading j }

/-- The checkbox `onChange` handler:
`setActionChecks(prev => ({...prev, [i]: checked}))`. -/
def handleToggle (i : Nat) (b : Bool) (s : CompState) : CompState :=
  { s with actionChecks := fun j => if j = i then b else s.actionChecks j }

/-- The updater passed to `setEditedActions` by
`handleActionPayloadEdit(index, field, value)`.  For an in-range index it
replaces exactly the named payload field of the action at that index.
For an out-of-range index the source evaluates
`copy[index].payload` with `copy[index] === undefined`, which throws a
TypeError; the thrown updater is modelled as `none`. -/
def editPayloadUpdater (prev : List ActionPreview) (index : Nat) (field value : String) :
    Option (List ActionPreview) :=
  match prev.get? index with
  | none => none
  | some a => some (prev.set index { a with payload := setField a.payload field value })

/-- The `handleActionPayloadEdit` handler lifted to component state. -/
def handleActionPayloadEdit (i : Nat) (field value : String) (s : CompState) :
    Option CompState :=
  match editPayloadUpdater s.editedActions i field value with
  | none => none
  | some l => some { s with editedActions := l }

/-- One registry operation of the action-preview registry. -/
inductive RegistryOp where
  | toggle (i : Nat) (b : Bool)
  | editField (i : Nat) (field value : String)
deriving DecidableEq, Repr

/-- Index named by a registry operation. -/
def RegistryOp.index : RegistryOp → Nat
  | RegistryOp.toggle i _ => i
  | RegistryOp.editField i _ _ => i

/-- Apply one registry operation. -/
def applyRegistryOp (s : CompState) : RegistryOp → Option CompState
  | RegistryOp.toggle i b => some (handleToggle i b s)
  | RegistryOp.editField i f v => handleActionPayloadEdit i f v s

/-- Apply a sequence of registry operations left to right. -/
def applyRegistryOps (s : CompState) : List RegistryOp → Option CompState
  | [] => some s
  | op :: ops =>
    match applyRegistryOp s op with
    | none => none
    | some s1 => applyRegistryOps s1 ops

/-- The `anyChecked` guard of the confirm button:
`Object.values(actionChecks).some(Boolean)`; the keys of the checks
object are the indices of the current edited actions. -/
def anyChecked (s : CompState) : Bool :=
  (List.range s.editedActions.length).any s.actionChecks

/-- World state: the component together with the in-flight asynchronous
activities of the event loop.  `pendingRuns` holds the issued analyze
calls that have not resolved yet, tagged with their issue sequence
number `nextRunId` (the tag exists only in this model, to speak about
issue order: the source attaches no such tag).  `pendingFinalize`
counts stop-recording finalizations whose `onloadend` has not fired. -/
structure World where
  comp : CompState
  pendingRuns : List (Nat × RunBody)
  nextRunId : Nat
  pendingConfirms : Nat
  pendingFinalize : Nat

/-- Initial world: fresh component, nothing in flight. -/
def initWorld : World where
  comp := initComp
  pendingRuns := []
  nextRunId := 0
  pendingConfirms := 0
  pendingFinalize := 0

/-- Typing into the primary text area. -/
def stepSetInput (txt : String) (w : World) : World :=
  { w with comp := { w.comp with inputText := txt } }

/-- Clicking the analyze button: the prelude of `handleRun("text")` runs
and the call joins the pending set with the next sequence number. -/
def stepClickAnalyzeText (w : World) : World :=
  let p := handleRunStart Mode.text none none w.comp
  { w with comp := p.1
           pendingRuns := w.pendingRuns ++ [(w.nextRunId, p.2)]
           nextRunId := w.nextRunId + 1 }

/-- Granted start of the primary capture site. -/
def stepStartRecordingGranted (w : World) : World :=
  { w with comp := handleStartRecordingGranted w.comp }

/-- Clicking stop on the primary capture site: the recorder stops and a
finalization (`onstop` plus `FileReader.onloadend`) becomes pending. -/
def stepStopRecording (w : World) : World :=
  { w with comp := handleStopRecording w.comp, pendingFinalize := w.pendingFinalize + 1 }

/-- The `onloadend` continuation of a pending finalization fires: the
prelude of `handleRun("audio", b64)` runs and the call joins the
pending set.  Nothing in the source guards this against an already
processing analyze call. -/
def stepAudioLoaded (b64 : String) (w : World) : World :=
  let p := handleRunStart Mode.audio (some b64) none w.comp
  { w with comp := p.1
           pendingRuns := w.pendingRuns ++ [(w.nextRunId, p.2)]
           nextRunId := w.nextRunId + 1
           pendingFinalize := w.pendingFinalize - 1 }

/-- A pending analyze call resolves successfully with response `d`. -/
def stepRunSuccess (id : Nat) (d : RunData) (w : World) : World :=
  { w with comp := handleRunResolveSuccess d w.comp
           pendingRuns := w.pendingRuns.filter (fun p => p.1 != id) }

/-- A pending analyze call resolves with an error. -/
def stepRunFailure (id : Nat) (w : World) : World :=
  { w with comp := handleRunResolveFailure w.comp
           pendingRuns := w.pendingRuns.filter (fun p => p.1 != id) }

/-- Clicking the confirm button: the prelude of `handleConfirm` runs and,
when the run-id guard passes, a confirm call becomes pending. -/
def stepClickConfirm (w : World) : World :=
  let p := handleConfirmStart w.comp
  { w with comp := p.1
           pendingConfirms := w.pendingConfirms +
             (match p.2 with
              | ConfirmStartOutcome.requested _ => 1
              | ConfirmStartOutcome.noActiveRun => 0) }

/-- A pending confirm call resolves successfully. -/
def stepConfirmSuccess (cd : ConfirmData) (w : World) : World :=
  { w with comp := handleConfirmResolveSuccess cd w.comp
           pendingConfirms := w.pendingConfirms - 1 }

/-- Granted start of the capture site at reschedule index `i`. -/
def stepRescheduleRecordStartGranted (i : Nat) (w : World) : World :=
  { w with comp := handleRescheduleStartRecordingGranted i w.comp }

/-- Event-loop step relation of the page.  Each constructor is one user
or completion event together with the conditions under which the UI lets
it fire (button rendering and disabling); the resulting world is the
corresponding transition function applied to the current world.  The
constructors cover the events needed by the claims under study; the
source has further events (reschedule submission, failure resolutions of
other calls) that only add behaviours. -/
inductive Step : World → World → Prop where
  | setInput (w : World) (txt : String) :
      w.comp.isProcessing = false →
      Step w (stepSetInput txt w)
  | clickAnalyzeText (w : World) :
      jsTrim w.comp.inputText ≠ "" →
      w.comp.isProcessing = false →
      Step w (stepClickAnalyzeText w)
  | startRecordingGranted (w : World) :
      w.comp.isProcessing = false →
      w.comp.isRecording = false →
      Step w (stepStartRecordingGranted w)
  | stopRecording (w : World) :
      w.comp.isProcessing = false →
      w.comp.isRecording = true →
      Step w (stepStopRecording w)
  | audioLoaded (w : World) (b64 : String) :
      0 < w.pendingFinalize →
      Step w (stepAudioLoaded b64 w)
  | runSuccess (w : World) (id : Nat) (body : RunBody) (d : RunData) :
      (id, body) ∈ w.pendingRuns →
      Step w (stepRunSuccess id d w)
  | runFailure (w : World) (id : Nat) (body : RunBody) :
      (id, body) ∈ w.pendingRuns →
      Step w (stepRunFailure id w)
  | clickConfirm (w : World) :
      w.comp.runResult.isSome = true →
      w.comp.isProcessing = false →
      w.comp.isConfirming = false →
      anyChecked w.comp = true →
      Step w (stepClickConfirm w)
  | confirmSuccess (w : World) (cd : ConfirmData) :
      0 < w.pendingConfirms →
      Step w (stepConfirmSuccess cd w)
  | rescheduleRecordStartGranted (w : World) (i : Nat) (cd : ConfirmData) (r : ExecResult) :
      w.comp.runResult.isSome = true →
      w.comp.isProcessing = false →
      w.comp.confirmResult = some cd →
      (cd.results.getD []).get? i = some r →
      r.status = "blocked" →
      r.action_type = "create_meeting" →
      w.comp.rescheduleLoading i = false →
      w.comp.rescheduleRecordingIndex ≠ some i →
      Step w (stepRescheduleRecordStartGranted i w)

/-- Worlds reachable from the initial world by event-loop steps. -/
inductive Reachable : World → Prop where
  | init : Reachable initWorld
  | step {w w2 : World} : Reachable w → Step w w2 → Reachable w2

/-- Apostrophe character, written by code point. -/
def apostropheChar : Char := Char.ofNat 39

/-- Double-quote character, written by code point. -/
def doubleQuoteChar : Char := Char.ofNat 34

/-- Replacement of every occurrence of the single character `c` by the
list `repl`, the semantics of `str.replace(/c/g, repl)` for a
one-character pattern. -/
def replaceCharList (c : Char) (repl : List Char) : List Char → List Char
  | [] => []
  | d :: rest => (if d = c then repl else [d]) ++ replaceCharList c repl rest

/-- String-level wrapper of `replaceCharList`. -/
def replaceAllChar (c : Char) (repl : String) (s : String) : String :=
  String.mk (replaceCharList c repl.data s.data)

/-- The `escapeHtml` helper: the source chain of five global
single-character replacements, ampersand first. -/
def escapeHtml (s : String) : String :=
  replaceAllChar apostropheChar "&#039;"
    (replaceAllChar doubleQuoteChar "&quot;"
      (replaceAllChar '>' "&gt;"
        (replaceAllChar '<' "&lt;"
          (replaceAllChar '&' "&amp;" s))))

/-- List-level form of the `escapeHtml` chain. -/
def listEscape (l : List Char) : List Char :=
  replaceCharList apostropheChar "&#039;".data
    (replaceCharList doubleQuoteChar "&quot;".data
      (replaceCharList '>' "&gt;".data
        (replaceCharList '<' "&lt;".data
          (replaceCharList '&' "&amp;".data l))))

/-- HTML entity of one character, per the claim: each of the five special
characters maps to its entity, every other character to itself. -/
def entityOf (c : Char) : List Char :=
  if c = '&' then "&amp;".data
  else if c = '<' then "&lt;".data
  else if c = '>' then "&gt;".data
  else if c = doubleQuoteChar then "&quot;".data
  else if c = apostropheChar then "&#039;".data
  else [c]

/-- Character-wise entity expansion of a whole character list. -/
def entityExpand : List Char → List Char
  | [] => []
  | d :: rest => entityOf d ++ entityExpand rest

/-- A character list free of angle brackets, hence free of markup. -/
def noAngle (l : List Char) : Bool :=
  l.all (fun c => c != '<' && c != '>')

/-- Concatenation of a list of strings, the embedding of
`Array.prototype.join("")`. -/
def concatAll : List String → String
  | [] => ""
  | x :: xs => x ++ concatAll xs

/-- Join with separator, the embedding of `Array.prototype.join(sep)`. -/
def joinSep (sep : String) : List String → String
  | [] => ""
  | [x] => x
  | x :: xs => x ++ sep ++ joinSep sep xs

/-- The `formatPlainTextAsHtml` helper: empty input maps to the empty
string, otherwise the trimmed text is split into blocks on blank lines,
each block into lines, every line is escaped, lines are joined with the
line-break tag and each block is wrapped in a paragraph tag. -/
def formatPlainTextAsHtml (text : String) : String :=
  if text = "" then ""
  else
    concatAll (((jsTrim text).splitOn "\n\n").map (fun block =>
      "<p>" ++ joinSep "<br/>" ((block.splitOn "\n").map escapeHtml) ++ "</p>"))

theorem replaceCharList_append (c : Char) (r a b : List Char) :
    replaceCharList c r (a ++ b) = replaceCharList c r a ++ replaceCharList c r b := by
  induction a with
  | nil => rfl
  | cons d rest ih => simp [replaceCharList, ih]

theorem listEscape_append (a b : List Char) :
    listEscape (a ++ b) = listEscape a ++ listEscape b := by
  simp [listEscape, replaceCharList_append]

theorem listEscape_single (d : Char) : listEscape [d] = entityOf d := by
  by_cases h1 : d = '&'
  · subst h1; decide
  · by_cases h2 : d = '<'
    · subst h2; decide
    · by_cases h3 : d = '>'
      · subst h3; decide
      · by_cases h4 : d = doubleQuoteChar
        · subst h4; decide
        · by_cases h5 : d = apostropheChar
          · subst h5; decide
          · simp [listEscape, replaceCharList, entityOf, h1, h2, h3, h4, h5]

theorem listEscape_eq_entityExpand (l : List Char) : listEscape l = entityExpand l := by
  induction l with
  | nil => rfl
  | cons d rest ih =>
    have h : d :: rest = [d] ++ rest := rfl
    rw [h, listEscape_append, listEscape_single, ih]
    rfl

theorem escapeHtml_data (s : String) : (escapeHtml s).data = listEscape s.data := rfl

theorem entityOf_noAngle (c : Char) : noAngle (entityOf c) = true := by
  by_cases h1 : c = '&'
  · subst h1; decide
  · by_cases h2 : c = '<'
    · subst h2; decide
    · by_cases h3 : c = '>'
      · subst h3; decide
      · by_cases h4 : c = doubleQuoteChar
        · subst h4; decide
        · by_cases h5 : c = apostropheChar
          · subst h5; decide
          · simp [entityOf, h1, h2, h3, h4, h5, noAngle]

theorem entityExpand_noAngle (l : List Char) : noAngle (entityExpand l) = true := by
  induction l with
  | nil => rfl
  | cons d rest ih =>
    have hd := entityOf_noAngle d
    simp only [entityExpand, noAngle, List.all_append]
    simp only [noAngle] at hd ih
    rw [hd, ih]
    rfl

theorem escapeHtml_noAngle (s : String) : noAngle (escapeHtml s).data = true := by
  rw [escapeHtml_data, listEscape_eq_entityExpand]
  exact entityExpand_noAngle s.data

/-- C10: for every input string, the plain-text reply-draft renderer
escapes every occurrence of ampersand, less-than, greater-than, double
quote and single quote to its HTML entity (the escaping is exactly the
character-wise entity expansion, so no double escaping occurs and no
other character is altered); the output decomposes into paragraph blocks
whose contents are angle-bracket-free lines joined by the line-break
tag, so the only tags in the output are the paragraph and line-break
wrappers the renderer introduces; and the empty string maps to the
empty string. -/
theorem c10_renderer_escapes :
    (∀ s : String, (escapeHtml s).data = entityExpand s.data) ∧
    (∀ t : String, ∃ blocks : List (List String),
      (∀ ls ∈ blocks, ∀ l ∈ ls, noAngle l.data = true) ∧
      formatPlainTextAsHtml t =
        concatAll (blocks.map (fun ls => "<p>" ++ joinSep "<br/>" ls ++ "</p>"))) ∧
    formatPlainTextAsHtml "" = "" := by
  refine ⟨fun s => ?_, fun t => ?_, rfl⟩
  · rw [escapeHtml_data, listEscape_eq_entityExpand]
  · by_cases ht : t = ""
    · subst ht
      exact ⟨[], by simp, rfl⟩
    · refine ⟨((jsTrim t).splitOn "\n\n").map (fun b => (b.splitOn "\n").map escapeHtml), ?_, ?_⟩
      · intro ls hls l hl
        rcases List.mem_map.mp hls with ⟨b, _, rfl⟩
        rcases List.mem_map.mp hl with ⟨x, _, rfl⟩
        exact escapeHtml_noAngle x
      · simp only [formatPlainTextAsHtml, if_neg ht, List.map_map]
        rfl

/-- Closed instance of C10 at a concrete input containing all five
special characters. -/
theorem c10_renderer_escapes_witness :
    (escapeHtml (String.mk ['a', '&', '<', '>', doubleQuoteChar, apostropheChar, 'b'])).data =
      entityExpand (String.mk ['a', '&', '<', '>', doubleQuoteChar, apostropheChar, 'b']).data :=
  c10_renderer_escapes.1 (String.mk ['a', '&', '<', '>', doubleQuoteChar, apostropheChar, 'b'])

theorem mapIdxFrom_get? (f : Nat → ActionPreview → ConfirmAction) (n : Nat)
    (acts : List ActionPreview) (i : Nat) :
    (mapIdxFrom f n acts).get? i = (acts.get? i).map (f (n + i)) := by
  induction acts generalizing n i with
  | nil => simp [mapIdxFrom]
  | cons a rest ih =>
    cases i with
    | zero => simp [mapIdxFrom]
    | succ j =>
      simp only [mapIdxFrom, List.get?]
      rw [ih (n + 1) j]
      have : n + 1 + j = n + (j + 1) := by omega
      rw [this]

theorem mapIdxFrom_length (f : Nat → ActionPreview → ConfirmAction) (n : Nat)
    (acts : List ActionPreview) : (mapIdxFrom f n acts).length = acts.length := by
  induction acts generalizing n with
  | nil => rfl
  | cons a rest ih => simp [mapIdxFrom, ih]

/-- C6: for every current action list and every assignment of enabled
flags, the serialized confirmation list has one entry per action in list
order — disabled actions included — and the entry at index `i` carries
the action at index `i` plus `confirmed` equal to its enabled flag and
`skip` equal to its negation. -/
theorem c6_serialize_for_confirmation (acts : List ActionPreview) (checks : Nat → Bool) :
    (serializeForConfirmation acts checks).length = acts.length ∧
    ∀ i, (serializeForConfirmation acts checks).get? i =
      (acts.get? i).map (fun a => { action := a, confirmed := checks i, skip := !checks i }) := by
  constructor
  · exact mapIdxFrom_length _ 0 acts
  · intro i
    rw [serializeForConfirmation, mapIdxFrom_get?]
    simp

/-- C8: invoking confirm while no successful analyze has assigned a
truthy run id (no stored run, or a run without an id, or an empty id)
takes the guard path: the outcome is `noActiveRun`, no confirm request
is issued and the component state is returned unchanged. -/
theorem c8_confirm_no_active_run (s : CompState)
    (h : s.runResult = none ∨
      ∃ r, s.runResult = some r ∧ (r.run_id = none ∨ r.run_id = some "")) :
    handleConfirmStart s = (s, ConfirmStartOutcome.noActiveRun) := by
  rcases h with h | ⟨r, hr, hid | hid⟩
  · simp [handleConfirmStart, h]
  · simp [handleConfirmStart, hr, hid]
  · simp [handleConfirmStart, hr, hid]

/-- Closed instance of C8 on the initial state. -/
theorem c8_confirm_no_active_run_witness :
    initComp.runResult = none ∧
    handleConfirmStart initComp = (initComp, ConfirmStartOutcome.noActiveRun) :=
  ⟨rfl, c8_confirm_no_active_run initComp (Or.inl rfl)⟩

/-- C9 counterexample: at the concrete stale input (empty action list,
index 0) the updater does not silently return the unchanged list — the
source evaluates `copy[0].payload` with `copy[0] === undefined` and
throws a TypeError, modelled as `none`. -/
theorem c9_counterexample :
    ¬ (editPayloadUpdater ([] : List ActionPreview) 0 "date" "2026-02-14" = some []) ∧
    editPayloadUpdater ([] : List ActionPreview) 0 "date" "2026-02-14" = none := by
  exact ⟨by decide, rfl⟩

/-- C9 amended: for every `editPayloadField` call with a stale index
(out of bounds of the current action list) the updater throws a
TypeError (reading `payload` of `undefined`) instead of performing a
silent no-op; no updated action list is produced. -/
theorem c9_stale_edit_throws (prev : List ActionPreview) (i : Nat) (f v : String)
    (h : prev.length ≤ i) : editPayloadUpdater prev i f v = none := by
  have hget : prev.get? i = none := List.get?_eq_none.mpr h
  unfold editPayloadUpdater
  rw [hget]

/-- Closed instance of C9 amended at a concrete stale input. -/
theorem c9_stale_edit_throws_witness :
    ([] : List ActionPreview).length ≤ 3 ∧
    editPayloadUpdater ([] : List ActionPreview) 3 "title" "X" = none :=
  ⟨by decide, c9_stale_edit_throws [] 3 "title" "X" (by decide)⟩

/-- Concrete meeting action used by the concrete scenarios. -/
def meetingAction : ActionPreview where
  action_type := "create_meeting"
  confidence := "0.92"
  preview := "Demo meeting next Tuesday"
  payload := [("title", "Demo"), ("date", "2026-02-14"),
              ("start_time", "14:00"), ("end_time", "15:00")]

/-- C3 concrete previous run. -/
def c3PrevRun : RunData := { run_id := some "run-77" }

/-- C3 concrete state holding a previous successful run. -/
def c3State : CompState := { initComp with runResult := some c3PrevRun }

/-- C3 counterexample: at a concrete state holding a previous run, a
failed analyze does not leave the previous run in place — `handleRun`
clears `runResult` at issue time, so after the failure the visible run
is empty rather than the prior run. -/
theorem c3_counterexample :
    c3State.runResult = some c3PrevRun ∧
    (handleRunResolveFailure (handleRunStart Mode.text none none c3State).1).runResult = none ∧
    (none : Option RunData) ≠ some c3PrevRun :=
  ⟨rfl, rfl, by decide⟩

/-- C3 amended: for every analyze call that fails, the visible run after
the failure is empty — the previous `AnalysisRun` is not preserved, it
is cleared when the call is issued — while the processing indicator is
cleared and the registry and draft state (edited actions, checks, reply
draft, per-index buffers, primary input) are left unchanged. -/
theorem c3_failed_analyze (s : CompState) (mode : Mode) (audioB64 overrideText : Option String) :
    (handleRunResolveFailure (handleRunStart mode audioB64 overrideText s).1).runResult = none ∧
    (handleRunResolveFailure (handleRunStart mode audioB64 overrideText s).1).confirmResult = none ∧
    (handleRunResolveFailure (handleRunStart mode audioB64 overrideText s).1).isProcessing = false ∧
    (handleRunResolveFailure (handleRunStart mode audioB64 overrideText s).1).editedActions
      = s.editedActions ∧
    (handleRunResolveFailure (handleRunStart mode audioB64 overrideText s).1).actionChecks
      = s.actionChecks ∧
    (handleRunResolveFailure (handleRunStart mode audioB64 overrideText s).1).replyDraft
      = s.replyDraft ∧
    (handleRunResolveFailure (handleRunStart mode audioB64 overrideText s).1).rescheduleInputs
      = s.rescheduleInputs ∧
    (handleRunResolveFailure (handleRunStart mode audioB64 overrideText s).1).inputText
      = s.inputText :=
  ⟨rfl, rfl, rfl, rfl, rfl, rfl, rfl, rfl⟩

/-- C5 concrete state with a non-empty per-index correction buffer. -/
def c5State : CompState :=
  { initComp with rescheduleInputs := fun i => if i = 0 then "move to 3pm" else "" }

/-- C5 concrete successful response. -/
def c5Run : RunData := { run_id := some "run-5", actions_preview := some [meetingAction] }

/-- C5 counterexample: at a concrete state whose reschedule draft buffer
at index 0 is non-empty, a successful analyze leaves the buffer exactly
as it was — the handler never touches `rescheduleInputs` — refuting the
clause that the RescheduleDraft map is cleared on success. -/
theorem c5_counterexample :
    (handleRunResolveSuccess c5Run c5State).rescheduleInputs 0 = "move to 3pm" ∧
    "move to 3pm" ≠ "" :=
  ⟨rfl, by decide⟩

/-- C5 amended: for every successful analyze call, the resulting
action-preview registry has every action enabled (the checks object is
rebuilt with `true` at every index of the new preview list), but the
RescheduleDraft map is not cleared: the per-index correction buffers
keep their previous contents (an individual buffer is cleared only by a
successful reschedule merge in `handleReschedule`). -/
theorem c5_success_checks_and_drafts (s : CompState) (d : RunData) :
    (∀ i, i < (d.actions_preview.getD []).length →
      (handleRunResolveSuccess d s).actionChecks i = true) ∧
    (handleRunResolveSuccess d s).rescheduleInputs = s.rescheduleInputs := by
  refine ⟨fun i h => ?_, rfl⟩
  simp [handleRunResolveSuccess, h]

/-- Closed instance of C5 amended at the concrete C5 scenario. -/
theorem c5_success_checks_and_drafts_witness :
    0 < (c5Run.actions_preview.getD []).length ∧
    (handleRunResolveSuccess c5Run c5State).actionChecks 0 = true ∧
    (handleRunResolveSuccess c5Run c5State).rescheduleInputs = c5State.rescheduleInputs :=
  ⟨by decide, (c5_success_checks_and_drafts c5State c5Run).1 0 (by decide),
    (c5_success_checks_and_drafts c5State c5Run).2⟩

/-- Component state after two overlapping analyze calls are issued and
both responses are handled, `dFirst` handled first and `dLast` handled
last (regardless of which call each response belongs to). -/
def afterTwoRuns (m1 m2 : Mode) (a1 a2 t1 t2 : Option String) (dFirst dLast : RunData)
    (s : CompState) : CompState :=
  handleRunResolveSuccess dLast
    (handleRunResolveSuccess dFirst
      (handleRunStart m2 a2 t2 (handleRunStart m1 a1 t1 s).1).1)

/-- C1 amended: the pipeline has no sequence tagging — each response is
applied to the visible run unconditionally on arrival, so after two
overlapping analyze calls the visible `AnalysisRun` (run result, reply
draft, edited actions, checks) equals the response handled last, even
when that response belongs to the earlier-issued call. -/
theorem c1_last_arrival_wins (m1 m2 : Mode) (a1 a2 t1 t2 : Option String)
    (dFirst dLast : RunData) (s : CompState) :
    (afterTwoRuns m1 m2 a1 a2 t1 t2 dFirst dLast s).runResult = some dLast ∧
    (afterTwoRuns m1 m2 a1 a2 t1 t2 dFirst dLast s).editedActions
      = dLast.actions_preview.getD [] ∧
    (afterTwoRuns m1 m2 a1 a2 t1 t2 dFirst dLast s).replyDraft
      = dLast.reply_draft.getD emptyReplyDraft ∧
    (∀ i, (afterTwoRuns m1 m2 a1 a2 t1 t2 dFirst dLast s).actionChecks i
      = decide (i < (dLast.actions_preview.getD []).length)) ∧
    (afterTwoRuns m1 m2 a1 a2 t1 t2 dFirst dLast s).isProcessing = false :=
  ⟨rfl, rfl, rfl, fun _ => rfl, rfl⟩

/-- State after one in-range payload edit: the action at `i` (known to be
`a`) gets exactly the named payload field replaced. -/
def editedAt (s : CompState) (i : Nat) (a : ActionPreview) (f v : String) : CompState :=
  { s with editedActions := s.editedActions.set i { a with payload := setField a.payload f v } }

theorem setField_lookup_ne (p : List (String × String)) (f v g : String) (h : g ≠ f) :
    lookupField (setField p f v) g = lookupField p g := by
  induction p with
  | nil => simp [setField, lookupField, Ne.symm h]
  | cons kv rest ih =>
    obtain ⟨k, w⟩ := kv
    by_cases hk : k = f
    · subst hk
      simp [setField, lookupField, Ne.symm h]
    · by_cases hkg : k = g
      · simp [setField, hk, lookupField, hkg, h]
      · simp [setField, hk, lookupField, hkg, ih]

/-- C7: for every sequence of toggle and payload-edit calls whose
indices are in range of the current action list, the sequence applies
without error, the action-preview list length is unchanged, the enabled
flag of every index not named by a toggle keeps its prior value, every
action at an index not named by an edit keeps its prior value, the
non-payload fields (action type, confidence, preview) of every action
keep their prior values, and every payload field not named by an edit of
that index keeps its prior value. -/
theorem c7_registry_frame (ops : List RegistryOp) (s : CompState)
    (hin : ∀ op ∈ ops, op.index < s.editedActions.length) :
    ∃ s2, applyRegistryOps s ops = some s2 ∧
      s2.editedActions.length = s.editedActions.length ∧
      (∀ j, (∀ b, RegistryOp.toggle j b ∉ ops) → s2.actionChecks j = s.actionChecks j) ∧
      (∀ j, (∀ f v, RegistryOp.editField j f v ∉ ops) →
        s2.editedActions.get? j = s.editedActions.get? j) ∧
      (∀ j, (s2.editedActions.get? j).map ActionPreview.action_type
          = (s.editedActions.get? j).map ActionPreview.action_type) ∧
      (∀ j, (s2.editedActions.get? j).map ActionPreview.confidence
          = (s.editedActions.get? j).map ActionPreview.confidence) ∧
      (∀ j, (s2.editedActions.get? j).map ActionPreview.preview
          = (s.editedActions.get? j).map ActionPreview.preview) ∧
      (∀ j f, (∀ v, RegistryOp.editField j f v ∉ ops) →
        (s2.editedActions.get? j).map (fun a => lookupField a.payload f)
          = (s.editedActions.get? j).map (fun a => lookupField a.payload f)) := by
  induction ops generalizing s with
  | nil =>
    exact ⟨s, rfl, rfl, fun _ _ => rfl, fun _ _ => rfl, fun _ => rfl, fun _ => rfl,
      fun _ => rfl, fun _ _ _ => rfl⟩
  | cons op ops ih =>
    cases op with
    | toggle i b =>
      have hin1 : ∀ op2 ∈ ops, op2.index < (handleToggle i b s).editedActions.length :=
        fun op2 hop => hin op2 (List.mem_cons_of_mem _ hop)
      obtain ⟨s2, happ, hlen, hch, hget, hty, hcf, hpv, hfld⟩ := ih (handleToggle i b s) hin1
      refine ⟨s2, ?_, hlen, ?_, ?_, hty, hcf, hpv, ?_⟩
      · simpa [applyRegistryOps, applyRegistryOp] using happ
      · intro j hj
        have hj2 : ∀ b2, RegistryOp.toggle j b2 ∉ ops :=
          fun b2 hmem => hj b2 (List.mem_cons_of_mem _ hmem)
        have hji : j ≠ i := by
          intro he
          subst he
          exact hj b (List.mem_cons_self _ _)
        rw [hch j hj2]
        simp [handleToggle, hji]
      · intro j hj
        exact hget j (fun f2 v2 hmem => hj f2 v2 (List.mem_cons_of_mem _ hmem))
      · intro j f2 hjf
        exact hfld j f2 (fun v2 hmem => hjf v2 (List.mem_cons_of_mem _ hmem))
    | editField i f v =>
      have hi : i < s.editedActions.length := hin _ (List.mem_cons_self _ _)
      obtain ⟨a, ha⟩ : ∃ a, s.editedActions.get? i = some a := by
        cases hcase : s.editedActions.get? i with
        | none => exact absurd (List.get?_eq_none.mp hcase) (Nat.not_le.mpr hi)
        | some a => exact ⟨a, rfl⟩
      have happly : applyRegistryOp s (RegistryOp.editField i f v) =
          some (editedAt s i a f v) := by
        have ha2 : s.editedActions[i]? = some a := by
          rw [← List.get?_eq_getElem?]
          exact ha
        simp [applyRegistryOp, handleActionPayloadEdit, editPayloadUpdater, ha2, editedAt]
      have hlen1 : (editedAt s i a f v).editedActions.length = s.editedActions.length := by
        simp [editedAt, List.length_set]
      have hin1 : ∀ op2 ∈ ops, op2.index < (editedAt s i a f v).editedActions.length := by
        intro op2 hop
        rw [hlen1]
        exact hin op2 (List.mem_cons_of_mem _ hop)
      obtain ⟨s2, happ, hlen, hch, hget, hty, hcf, hpv, hfld⟩ := ih _ hin1
      have hget1_ne : ∀ j, j ≠ i →
          (editedAt s i a f v).editedActions.get? j = s.editedActions.get? j := by
        intro j hj
        simp [editedAt, List.get?_eq_getElem?, List.getElem?_set_ne (Ne.symm hj)]
      have hget1_eq : (editedAt s i a f v).editedActions.get? i
            = some ({ a with payload := setField a.payload f v }) := by
        simp [editedAt, List.get?_eq_getElem?, List.getElem?_set_eq_of_lt _ hi]
      refine ⟨s2, ?_, ?_, ?_, ?_, ?_, ?_, ?_, ?_⟩
      · simp only [applyRegistryOps, happly]
        exact happ
      · rw [hlen, hlen1]
      · intro j hj
        exact hch j (fun b2 hmem => hj b2 (List.mem_cons_of_mem _ hmem))
      · intro j hj
        have hji : j ≠ i := by
          intro he
          subst he
          exact hj f v (List.mem_cons_self _ _)
        rw [hget j (fun f2 v2 hmem => hj f2 v2 (List.mem_cons_of_mem _ hmem))]
        exact hget1_ne j hji
      · intro j
        rw [hty j]
        by_cases hji : j = i
        · subst hji
          rw [hget1_eq, ha]
          rfl
        · rw [hget1_ne j hji]
      · intro j
        rw [hcf j]
        by_cases hji : j = i
        · subst hji
          rw [hget1_eq, ha]
          rfl
        · rw [hget1_ne j hji]
      · intro j
        rw [hpv j]
        by_cases hji : j = i
        · subst hji
          rw [hget1_eq, ha]
          rfl
        · rw [hget1_ne j hji]
      · intro j f2 hjf
        rw [hfld j f2 (fun v2 hmem => hjf v2 (List.mem_cons_of_mem _ hmem))]
        by_cases hji : j = i
        · subst hji
          have hf2f : f2 ≠ f := by
            intro he
            subst he
            exact hjf v (List.mem_cons_self _ _)
          rw [hget1_eq, ha]
          exact congrArg some (setField_lookup_ne a.payload f v f2 hf2f)
        · rw [hget1_ne j hji]

theorem append_ne_left (s t : String) (h : s ≠ "") : s ++ t ≠ "" := by
  intro hc
  apply h
  have hd : s.data ++ t.data = ([] : List Char) := by
    have h2 := congrArg String.data hc
    simpa [String.data_append] using h2
  rcases List.append_eq_nil.mp hd with ⟨h1, _⟩
  cases s with
  | mk l =>
    simp only [String.data] at h1
    subst h1
    rfl

theorem en_template_ne (t d st e : String) :
    ("Reschedule update: move \"" ++ t ++ "\" to " ++ d ++ " " ++ st ++ "-" ++ e
      ++ " (Timezone: " ++ "America/Toronto" ++ ").") ≠ "" := by
  repeat apply append_ne_left
  decide

theorem zh_template_ne (t d st e : String) :
    ("改期更新：将「" ++ t ++ "」调整为 " ++ d ++ " " ++ st ++ "-" ++ e
      ++ "（时区：" ++ "America/Toronto" ++ "）。") ≠ "" := by
  repeat apply append_ne_left
  decide

theorem buildRescheduleLine_ne (lg : Lang) (a : ActionPreview) (r : String) :
    buildRescheduleLine lg a r ≠ "" := by
  cases lg with
  | en => exact en_template_ne _ _ _ _
  | zh => exact zh_template_ne _ _ _ _

/-- C4 concrete state: one action, a primary input, and a leftover draft
buffer at index 0. -/
def c4State : CompState :=
  { initComp with
    inputText := "orig request"
    editedActions := [meetingAction]
    rescheduleInputs := fun i => if i = 0 then "leftover draft" else "" }

/-- C4 concrete state after the reschedule prelude raised the loading
flag at index 0. -/
def c4Mid : CompState :=
  { c4State with rescheduleLoading := fun j => if j = 0 then true else c4State.rescheduleLoading j }

/-- C4 concrete audio-mode request body. -/
def c4Body : RescheduleBody :=
  { mode := Mode.audio, locale := Lang.en, action := meetingAction, audio_base64 := some "QUJD" }

/-- C4 concrete response carrying no structured action and empty text. -/
def c4Resp : RescheduleResponse := { user_text := some "", action := none }

/-- C4 counterexample: a concrete audio-mode `submitReschedule` whose
response has no structured action and whose effective text is empty.
The claim says the resolved line is appended, the draft buffer cleared
and a text analyze issued; the source guards on a truthy normalized line,
so here nothing is appended, the buffer keeps its contents and no
analyze call is issued. -/
theorem c4_counterexample :
    handleRescheduleStart 0 Mode.audio (some "QUJD") c4State = some (c4Mid, c4Body) ∧
    (handleRescheduleResolveSuccess 0 c4Body c4Resp c4Mid).2 = none ∧
    (handleRescheduleResolveSuccess 0 c4Body c4Resp c4Mid).1.inputText = "orig request" ∧
    (handleRescheduleResolveSuccess 0 c4Body c4Resp c4Mid).1.rescheduleInputs 0
      = "leftover draft" ∧
    "leftover draft" ≠ "" :=
  ⟨rfl, by decide, by decide, by decide, by decide⟩

/-- C4 amended: for every `submitReschedule(index, mode, payload)` call
that reaches the backend, when the response carries a structured
adjusted action the resolved line is the locale-specific template over
that action (and is never empty); otherwise the resolved line is the raw
returned text.  Whenever the resolved line is non-empty — always the
case with a structured action — the line is appended to the primary
input (after a newline when the input is non-empty), the draft buffer at
that index is cleared and a text-mode analyze call on the merged input
is issued; when the resolved line is empty (no structured action and
empty effective text) nothing is appended, the buffer is retained and no
analyze call is issued. -/
theorem c4_reschedule_merge (s s1 : CompState) (i : Nat) (mode : Mode)
    (audioB64 : Option String) (body : RescheduleBody) (resp : RescheduleResponse)
    (hstart : handleRescheduleStart i mode audioB64 s = some (s1, body)) :
    (∀ a, resp.action = some a →
      resolvedRescheduleLine s1.lang body resp
          = buildRescheduleLine s1.lang a (rescheduleRawText body resp) ∧
        resolvedRescheduleLine s1.lang body resp ≠ "") ∧
    (resp.action = none →
      resolvedRescheduleLine s1.lang body resp = rescheduleRawText body resp) ∧
    (resolvedRescheduleLine s1.lang body resp ≠ "" →
      (handleRescheduleResolveSuccess i body resp s1).1.inputText =
        (if s1.inputText = "" then resolvedRescheduleLine s1.lang body resp
         else s1.inputText ++ "\n" ++ resolvedRescheduleLine s1.lang body resp) ∧
      (handleRescheduleResolveSuccess i body resp s1).1.rescheduleInputs i = "" ∧
      (handleRescheduleResolveSuccess i body resp s1).1.isProcessing = true ∧
      (handleRescheduleResolveSuccess i body resp s1).2 =
        some { mode := Mode.text, locale := s1.lang, audio_base64 := none,
               text := some (if s1.inputText = "" then resolvedRescheduleLine s1.lang body resp
                             else s1.inputText ++ "\n" ++ resolvedRescheduleLine s1.lang body resp) }) ∧
    (resolvedRescheduleLine s1.lang body resp = "" →
      (handleRescheduleResolveSuccess i body resp s1).1.inputText = s1.inputText ∧
      (handleRescheduleResolveSuccess i body resp s1).1.rescheduleInputs i
        = s1.rescheduleInputs i ∧
      (handleRescheduleResolveSuccess i body resp s1).2 = none) := by
  refine ⟨?_, ?_, ?_, ?_⟩
  · intro a haction
    constructor
    · simp [resolvedRescheduleLine, haction]
    · rw [resolvedRescheduleLine, haction]
      exact buildRescheduleLine_ne _ _ _
  · intro haction
    simp [resolvedRescheduleLine, haction]
  · intro hne
    rw [handleRescheduleResolveSuccess]
    simp only [if_neg hne]
    rw [appendToAnalyzeInput]
    simp only [if_neg hne]
    by_cases hempty : s1.inputText = ""
    · simp [hempty, handleRunStart]
    · simp [hempty, handleRunStart]
  · intro heq
    rw [handleRescheduleResolveSuccess]
    simp only [if_pos heq]
    exact ⟨trivial, trivial, trivial⟩

/-- C4 witness scenario state: text-mode correction draft at index 0. -/
def c4wState : CompState :=
  { initComp with
    inputText := "orig request"
    editedActions := [meetingAction]
    rescheduleInputs := fun i => if i = 0 then "move to 3pm" else "" }

/-- C4 witness state after the prelude. -/
def c4wMid : CompState :=
  { c4wState with rescheduleLoading := fun j => if j = 0 then true else c4wState.rescheduleLoading j }

/-- C4 witness request body. -/
def c4wBody : RescheduleBody :=
  { mode := Mode.text, locale := Lang.en, action := meetingAction, text := some "move to 3pm" }

/-- C4 witness structured adjusted action returned by the backend. -/
def c4wAdjusted : ActionPreview :=
  { meetingAction with payload := [("title", "Demo"), ("date", "2026-02-14"),
    ("start_time", "15:00"), ("end_time", "16:00")] }

/-- C4 witness response. -/
def c4wResp : RescheduleResponse := { user_text := some "moved", action := some c4wAdjusted }

/-- Closed instance of C4 amended on the witness scenario: the prelude
issues the call, and on a response with a structured action the draft
buffer is cleared and the follow-up analyze prelude has run. -/
theorem c4_reschedule_merge_witness :
    handleRescheduleStart 0 Mode.text none c4wState = some (c4wMid, c4wBody) ∧
    ((handleRescheduleResolveSuccess 0 c4wBody c4wResp c4wMid).1.rescheduleInputs 0 = "" ∧
      (handleRescheduleResolveSuccess 0 c4wBody c4wResp c4wMid).1.isProcessing = true) := by
  have H := c4_reschedule_merge c4wState c4wMid 0 Mode.text none c4wBody c4wResp rfl
  have hne := (H.1 c4wAdjusted rfl).2
  have HC := H.2.2.1 hne
  exact ⟨rfl, HC.2.1, HC.2.2.1⟩

/-- C1 trace: the primary input typed before recording. -/
def c1Input : String := "schedule a demo next Tuesday 2pm"

/-- C1 trace: response of the earlier-issued (text) analyze call. -/
def c1TextRun : RunData := { run_id := some "run-text" }

/-- C1 trace: response of the later-issued (audio) analyze call. -/
def c1AudioRun : RunData := { run_id := some "run-audio" }

/-- C1 trace: body of the earlier-issued text call (sequence number 0). -/
def c1TextBody : RunBody := { mode := Mode.text, locale := Lang.en, text := some c1Input }

/-- C1 trace: body of the later-issued audio call (sequence number 1). -/
def c1AudioBody : RunBody := { mode := Mode.audio, locale := Lang.en, audio_base64 := some "QUJD" }

/-- C1 trace, step 1: type the request. -/
def c1w1 : World := stepSetInput c1Input initWorld

/-- C1 trace, step 2: start the primary recording. -/
def c1w2 : World := stepStartRecordingGranted c1w1

/-- C1 trace, step 3: stop the recording; finalization becomes pending. -/
def c1w3 : World := stepStopRecording c1w2

/-- C1 trace, step 4: click analyze — the text call is issued first
(sequence number 0). -/
def c1w4 : World := stepClickAnalyzeText c1w3

/-- C1 trace, step 5: the audio finalization fires and issues the audio
call second (sequence number 1), while call 0 is still pending. -/
def c1w5 : World := stepAudioLoaded "QUJD" c1w4

/-- C1 trace, step 6: the later-issued call (1) resolves first. -/
def c1w6 : World := stepRunSuccess 1 c1AudioRun c1w5

/-- C1 trace, final: the earlier-issued call (0) resolves last and its
response is applied unconditionally. -/
def c1Final : World := stepRunSuccess 0 c1TextRun c1w6

/-- C1 counterexample: a reachable event-loop trace issues analyze calls
with sequence numbers 0 (text) and 1 (audio); the response of call 1
arrives first and the response of call 0 arrives last.  The claim says
the visible run then equals the call-1 response; in the source the
visible run equals the stale call-0 response, which differs from it. -/
theorem c1_counterexample :
    Reachable c1Final ∧
    c1Final.comp.runResult = some c1TextRun ∧
    c1TextRun ≠ c1AudioRun := by
  refine ⟨?_, rfl, by decide⟩
  have r1 : Reachable c1w1 := Reachable.step Reachable.init (Step.setInput initWorld c1Input rfl)
  have r2 : Reachable c1w2 :=
    Reachable.step r1 (Step.startRecordingGranted c1w1 rfl rfl)
  have r3 : Reachable c1w3 := Reachable.step r2 (Step.stopRecording c1w2 rfl rfl)
  have r4 : Reachable c1w4 :=
    Reachable.step r3 (Step.clickAnalyzeText c1w3 (by decide) rfl)
  have r5 : Reachable c1w5 := Reachable.step r4 (Step.audioLoaded c1w4 "QUJD" (by decide))
  have r6 : Reachable c1w6 :=
    Reachable.step r5 (Step.runSuccess c1w5 1 c1AudioBody c1AudioRun (by decide))
  exact Reachable.step r6 (Step.runSuccess c1w6 0 c1TextBody c1TextRun (by decide))

/-- C2 trace: analyze response with one meeting action. -/
def c2Run : RunData := { run_id := some "run-2", actions_preview := some [meetingAction] }

/-- C2 trace: body of the analyze call. -/
def c2RunBody : RunBody := { mode := Mode.text, locale := Lang.en, text := some c1Input }

/-- C2 trace: confirm response whose meeting action is blocked. -/
def c2Confirm : ConfirmData :=
  { results := some [{ action_type := "create_meeting", status := "blocked" }] }

/-- C2 trace, step 1: type the request. -/
def c2w1 : World := stepSetInput c1Input initWorld

/-- C2 trace, step 2: issue the analyze call. -/
def c2w2 : World := stepClickAnalyzeText c2w1

/-- C2 trace, step 3: the analyze call succeeds with one meeting action. -/
def c2w3 : World := stepRunSuccess 0 c2Run c2w2

/-- C2 trace, step 4: click confirm. -/
def c2w4 : World := stepClickConfirm c2w3

/-- C2 trace, step 5: the confirm call returns a blocked meeting. -/
def c2w5 : World := stepConfirmSuccess c2Confirm c2w4

/-- C2 trace, step 6: the primary capture site starts recording. -/
def c2w6 : World := stepStartRecordingGranted c2w5

/-- C2 trace, final: while the primary site is still recording, capture
at reschedule index 0 is started and granted. -/
def c2Final : World := stepRescheduleRecordStartGranted 0 c2w6

/-- C2 counterexample: a reachable event-loop trace in which the primary
capture site is recording and capture at reschedule index 0 is then
started: the start succeeds (there is no ownership arbitration and no
AlreadyOwned failure in the source), so two capture sites are recording
at once. -/
theorem c2_counterexample :
    Reachable c2Final ∧
    c2Final.comp.isRecording = true ∧
    c2Final.comp.rescheduleRecordingIndex = some 0 := by
  refine ⟨?_, rfl, rfl⟩
  have r1 : Reachable c2w1 := Reachable.step Reachable.init (Step.setInput initWorld c1Input rfl)
  have r2 : Reachable c2w2 :=
    Reachable.step r1 (Step.clickAnalyzeText c2w1 (by decide) rfl)
  have r3 : Reachable c2w3 :=
    Reachable.step r2 (Step.runSuccess c2w2 0 c2RunBody c2Run (by decide))
  have r4 : Reachable c2w4 := Reachable.step r3 (Step.clickConfirm c2w3 rfl rfl rfl (by decide))
  have r5 : Reachable c2w5 := Reachable.step r4 (Step.confirmSuccess c2w4 c2Confirm (by decide))
  have r6 : Reachable c2w6 :=
    Reachable.step r5 (Step.startRecordingGranted c2w5 rfl rfl)
  exact Reachable.step r6
    (Step.rescheduleRecordStartGranted c2w6 0 c2Confirm
      { action_type := "create_meeting", status := "blocked" } rfl rfl rfl (by decide) rfl rfl rfl
      (by decide))

/-- C2 amended: starting capture at a reschedule index never consults
any ownership arbiter: whenever the reschedule record affordance is
enabled (a visible run, a blocked meeting result at that index, no
pending loading and not already recording there), the granted start is a
legal event-loop step even while the primary site is recording, and in
the successor state both the primary flag and the new reschedule
recording index are set — there is no AlreadyOwned failure. -/
theorem c2_no_arbitration (w : World) (i : Nat) (cd : ConfirmData) (r : ExecResult)
    (h1 : w.comp.runResult.isSome = true)
    (h2 : w.comp.isProcessing = false)
    (h3 : w.comp.confirmResult = some cd)
    (h4 : (cd.results.getD []).get? i = some r)
    (h5 : r.status = "blocked")
    (h6 : r.action_type = "create_meeting")
    (h7 : w.comp.rescheduleLoading i = false)
    (h8 : w.comp.rescheduleRecordingIndex ≠ some i)
    (hrec : w.comp.isRecording = true) :
    Step w (stepRescheduleRecordStartGranted i w) ∧
    (stepRescheduleRecordStartGranted i w).comp.isRecording = true ∧
    (stepRescheduleRecordStartGranted i w).comp.rescheduleRecordingIndex = some i := by
  refine ⟨Step.rescheduleRecordStartGranted w i cd r h1 h2 h3 h4 h5 h6 h7 h8, ?_, rfl⟩
  exact hrec

/-- Closed instance of C2 amended at the penultimate world of the C2
trace, where the primary site is recording. -/
theorem c2_no_arbitration_witness :
    c2w6.comp.isRecording = true ∧
    Step c2w6 (stepRescheduleRecordStartGranted 0 c2w6) ∧
    (stepRescheduleRecordStartGranted 0 c2w6).comp.isRecording = true ∧
    (stepRescheduleRecordStartGranted 0 c2w6).comp.rescheduleRecordingIndex = some 0 :=
  ⟨rfl,
    c2_no_arbitration c2w6 0 c2Confirm
      { action_type := "create_meeting", status := "blocked" } rfl rfl rfl (by decide) rfl rfl rfl
      (by decide) rfl⟩

/-- C7 witness state: one action, enabled. -/
def c7State : CompState :=
  { initComp with
    editedActions := [meetingAction]
    actionChecks := fun i => decide (i < 1) }

/-- C7 witness operation sequence: a toggle and a payload edit at
index 0. -/
def c7Ops : List RegistryOp :=
  [RegistryOp.toggle 0 false, RegistryOp.editField 0 "title" "Quarterly sync"]

/-- Closed instance of C7 at the witness state and operation sequence. -/
theorem c7_registry_frame_witness :
    (∀ op ∈ c7Ops, op.index < c7State.editedActions.length) ∧
    (∃ s2, applyRegistryOps c7State c7Ops = some s2 ∧
      s2.editedActions.length = c7State.editedActions.length ∧
      (∀ j, (∀ b, RegistryOp.toggle j b ∉ c7Ops) → s2.actionChecks j = c7State.actionChecks j) ∧
      (∀ j, (∀ f v, RegistryOp.editField j f v ∉ c7Ops) →
        s2.editedActions.get? j = c7State.editedActions.get? j) ∧
      (∀ j, (s2.editedActions.get? j).map ActionPreview.action_type
          = (c7State.editedActions.get? j).map ActionPreview.action_type) ∧
      (∀ j, (s2.editedActions.get? j).map ActionPreview.confidence
          = (c7State.editedActions.get? j).map ActionPreview.confidence) ∧
      (∀ j, (s2.editedActions.get? j).map ActionPreview.preview
          = (c7State.editedActions.get? j).map ActionPreview.preview) ∧
      (∀ j f, (∀ v, RegistryOp.editField j f v ∉ c7Ops) →
        (s2.editedActions.get? j).map (fun a => lookupField a.payload f)
          = (c7State.editedActions.get? j).map (fun a => lookupField a.payload f))) :=
  ⟨by decide, c7_registry_frame c7Ops c7State (by decide)⟩
